import Mathlib

/-!
# Melee character: combat state machine

A shallow embedding of `Source/Melee/MeleeCharacter.cpp` and
`Source/Melee/AttackingNotifyState.cpp`.

The character is a record of the fields the combat code reads and writes.
Calls into the engine that only produce an effect outside the character
(animation playback, audio, movement input, crouch requests) are appended to
the `calls` log of the record, in program order.  World time is counted in
whole time units; `ExitReadyTime` is 4 of them.
-/

namespace Melee

/-! ## Engine data -/

/-- Engine name type.  A default-constructed `FName` is `NAME_None`. -/
inductive FName where
  | NAME_None
  | Name (s : String)
  deriving DecidableEq

/-- One named section of a montage (`FCompositeSection`). -/
structure FCompositeSection where
  SectionName : FName
  deriving DecidableEq

/-- Animation montage: only its section array is read by the combat code. -/
structure UAnimMontage where
  CompositeSections : List FCompositeSection
  deriving DecidableEq

/-- Row type of the attack table (`MeleeCharacter.h`): a montage pointer,
which may be null, and a description. -/
structure FAttackMontage where
  Montage : Option UAnimMontage
  Desc : String
  deriving DecidableEq

/-- Attack kinds (`MeleeCharacter.h`). -/
inductive EAttackType where
  | PUNCH
  | KICK
  deriving DecidableEq

/-- Data table asset: its rows, keyed by name. -/
structure UDataTable where
  RowMap : List (FName × FAttackMontage)
  deriving DecidableEq

/-- Modelled from the spec: `UDataTable::FindRow` belongs to the engine and is
not part of the repository sources.  The catalog contract is
`lookup(name) -> AttackDefinition | NotFound`, and when no row name was
determined "no row is resolved": the engine function returns null for the
name `None` before it consults the row map, and otherwise the row stored
under the name, if any. -/
def UDataTable.FindRow (T : UDataTable) (RowName : FName) : Option FAttackMontage :=
  if RowName = FName.NAME_None then none
  else T.RowMap.lookup RowName

/-- Collision modes of a primitive component (`ECollisionEnabled::Type`). -/
inductive ECollisionEnabled where
  | NoCollision
  | QueryOnly
  | PhysicsOnly
  | QueryAndPhysics
  deriving DecidableEq

/-- Rotation in whole degrees. -/
structure FRotator where
  Pitch : Int
  Yaw : Int
  Roll : Int
  deriving DecidableEq

/-- Axis selector of `FRotationMatrix::GetUnitAxis`. -/
inductive EAxis where
  | X
  | Y
  | Z
  deriving DecidableEq

/-- World the actor lives in: only its clock is used. -/
structure UWorld where
  TimeSeconds : Nat
  deriving DecidableEq

/-- Calls that leave the character and reach an external collaborator.
`PlayAnimMontage` carries the montage, the play rate (always `1.0f`, written
1) and the start section; `AddMovementInput` carries the direction as the
yaw rotation and the unit axis it was computed from, and the scale value. -/
inductive EngineCall where
  | PlayAnimMontage (AnimMontage : UAnimMontage) (InPlayRate : Nat) (StartSectionName : FName)
  | SetPitchMultiplier (NewPitchMultiplier : Nat)
  | Play
  | AddMovementInput (YawRotation : FRotator) (Axis : EAxis) (ScaleValue : Int)
  | Crouch
  | UnCrouch
  deriving DecidableEq

/-! ## The character -/

/-- Fields of `AMeleeCharacter` used by the combat code.

* `AttackMontageDataTable`: `none` is the null pointer (asset not found).
* `LeftAttackBox`, `RightAttackBox`: the collision mode of each hit volume.
* `AttackAudioComp`: whether the audio component pointer is non-null.
* `ExitReadyTimer`: the world time at which the pending readiness timer
  expires, `none` when no timer is pending under the handle.
* `Controller`: the control rotation of the possessing controller, `none`
  when `Controller == NULL`.
* `World`: the result of `GetWorld()`.
* `calls`: the engine calls issued so far. -/
structure AMeleeCharacter where
  AttackMontageDataTable : Option UDataTable
  LeftAttackBox : ECollisionEnabled
  RightAttackBox : ECollisionEnabled
  AttackAudioComp : Bool
  bReady : Bool
  ExitReadyTimer : Option Nat
  bIsStanding : Bool
  bIsCrouched : Bool
  Controller : Option FRotator
  World : Option UWorld
  calls : List EngineCall
  deriving DecidableEq

/-- Constant `const float AMeleeCharacter::ExitReadyTime = 4;` -/
def ExitReadyTime : Nat := 4

/-- Embeds `AMeleeCharacter::OnAttackEnableChanged` -/
def OnAttackEnableChanged (Enable : Bool) (s : AMeleeCharacter) : AMeleeCharacter :=
  if Enable then
    { s with LeftAttackBox := ECollisionEnabled.QueryAndPhysics,
             RightAttackBox := ECollisionEnabled.QueryAndPhysics }
  else
    { s with bIsStanding := true,
             LeftAttackBox := ECollisionEnabled.NoCollision,
             RightAttackBox := ECollisionEnabled.NoCollision }

/-- Embeds `UAttackingNotifyState::NotifyBegin`, seen from one character `Role`.
`MeshComp` is `none` for a null mesh pointer, `some false` for a mesh whose
owner does not cast to this character, `some true` for this character's
mesh. -/
def NotifyBegin (MeshComp : Option Bool) (Role : AMeleeCharacter) : AMeleeCharacter :=
  match MeshComp with
  | some true => OnAttackEnableChanged true Role
  | _ => Role

/-- Embeds `UAttackingNotifyState::NotifyEnd`, with `MeshComp` as in `NotifyBegin`. -/
def NotifyEnd (MeshComp : Option Bool) (Role : AMeleeCharacter) : AMeleeCharacter :=
  match MeshComp with
  | some true => OnAttackEnableChanged false Role
  | _ => Role

/-- Embeds `AMeleeCharacter::CrouchStart`: the crouch request itself is the
engine's. -/
def CrouchStart (s : AMeleeCharacter) : AMeleeCharacter :=
  if s.bIsCrouched then { s with calls := s.calls ++ [EngineCall.UnCrouch] }
  else { s with calls := s.calls ++ [EngineCall.Crouch] }

/-- Embeds `AMeleeCharacter::ReadyToFight`: toggle the flag; with a world, clear the
timer and, when now ready, set it to expire `ExitReadyTime` from now. -/
def ReadyToFight (s : AMeleeCharacter) : AMeleeCharacter :=
  let s1 := { s with bReady := !s.bReady }
  match s1.World with
  | some World =>
    let s2 := { s1 with ExitReadyTimer := none }
    if s2.bReady then
      { s2 with ExitReadyTimer := some (World.TimeSeconds + ExitReadyTime) }
    else s2
  | none => s1

/-- Embeds `AMeleeCharacter::ExitReadyTimeout` -/
def ExitReadyTimeout (s : AMeleeCharacter) : AMeleeCharacter :=
  { s with bReady := false }

/-- The row name chosen by the `switch` of `Attack`, with the stance update
of the `KICK` case. -/
def selectRow (Ty : EAttackType) (s : AMeleeCharacter) : FName × AMeleeCharacter :=
  match Ty with
  | EAttackType.PUNCH => (FName.Name "Punch", s)
  | EAttackType.KICK =>
    if s.bIsStanding then (FName.Name "Kick", { s with bIsStanding := false })
    else (FName.NAME_None, s)

/-- Embeds `AMeleeCharacter::Attack`.  `Rand` is the value returned by
`FMath::Rand()`, which is never negative. -/
def Attack (Ty : EAttackType) (Rand : Nat) (s : AMeleeCharacter) : AMeleeCharacter :=
  let s1 := if !s.bReady then ReadyToFight s else s
  match s1.AttackMontageDataTable with
  | none => s1
  | some Table =>
    let sel := selectRow Ty s1
    let RowName := sel.1
    let s2 := sel.2
    match Table.FindRow RowName with
    | some AttackMontage =>
      match AttackMontage.Montage with
      | some Montage =>
        let count := Montage.CompositeSections.length
        if h : 0 < count then
          let id := Rand % count
          { s2 with calls := s2.calls ++
              [EngineCall.PlayAnimMontage Montage 1
                (Montage.CompositeSections.get ⟨id, Nat.mod_lt Rand h⟩).SectionName] }
        else s2
      | none => s2
    | none => s2

/-- Embeds `AMeleeCharacter::Punch` -/
def Punch (Rand : Nat) (s : AMeleeCharacter) : AMeleeCharacter :=
  Attack EAttackType.PUNCH Rand s

/-- Embeds `AMeleeCharacter::Kick` -/
def Kick (Rand : Nat) (s : AMeleeCharacter) : AMeleeCharacter :=
  Attack EAttackType.KICK Rand s

/-- Embeds `AMeleeCharacter::OnAttackHit`.  `Pitch` is the value drawn by
`FMath::RandRange(.5f, 4.f)`, in fixed-point units; the hit arguments are
not read. -/
def OnAttackHit (Pitch : Nat) (s : AMeleeCharacter) : AMeleeCharacter :=
  if s.AttackAudioComp then
    { s with calls := s.calls ++ [EngineCall.SetPitchMultiplier Pitch, EngineCall.Play] }
  else s

/-- Embeds `AMeleeCharacter::MoveForward`; the axis value is an integer, zero
standing for `0.0f`. -/
def MoveForward (Value : Int) (s : AMeleeCharacter) : AMeleeCharacter :=
  match s.Controller with
  | some Rotation =>
    if Value ≠ 0 ∧ s.bIsStanding = true then
      { s with calls := s.calls ++
          [EngineCall.AddMovementInput ⟨0, Rotation.Yaw, 0⟩ EAxis.X Value] }
    else s
  | none => s

/-- Embeds `AMeleeCharacter::MoveRight` -/
def MoveRight (Value : Int) (s : AMeleeCharacter) : AMeleeCharacter :=
  match s.Controller with
  | some Rotation =>
    if Value ≠ 0 ∧ s.bIsStanding = true then
      { s with calls := s.calls ++
          [EngineCall.AddMovementInput ⟨0, Rotation.Yaw, 0⟩ EAxis.Y Value] }
    else s
  | none => s

/-! ## Time and event sequences -/

/-- Modelled from the spec: the timer service of the simulation host is
engine code.  The readiness deadline is "a single-shot cancellable timer;
firing sets `isReady = false` with no further side effects", and "the
deadline, when reached, flips `isReady` back to false".  Advancing the world
clock by `DeltaSeconds` runs `ExitReadyTimeout` once when the pending expiry
time has been reached, and the handle is then no longer pending. -/
def Tick (DeltaSeconds : Nat) (s : AMeleeCharacter) : AMeleeCharacter :=
  match s.World with
  | some World =>
    let now := World.TimeSeconds + DeltaSeconds
    let s1 := { s with World := some ⟨now⟩ }
    match s1.ExitReadyTimer with
    | some ExpireTime =>
      if ExpireTime ≤ now then ExitReadyTimeout { s1 with ExitReadyTimer := none }
      else s1
    | none => s1
  | none => s

/-- What can happen to a character: the bound input actions and axes
(`SetupPlayerInputComponent`), the two animation notifications that reach
it, a hit reported by a hit volume (`BeginPlay`), and the passing of time. -/
inductive Event where
  | Punch (Rand : Nat)
  | Kick (Rand : Nat)
  | CrouchStart
  | MoveForward (Value : Int)
  | MoveRight (Value : Int)
  | OnWindowOpen
  | OnWindowClose
  | OnAttackHit (Pitch : Nat)
  | Tick (DeltaSeconds : Nat)
  deriving DecidableEq

/-- The handler run for an event. -/
def step (s : AMeleeCharacter) (e : Event) : AMeleeCharacter :=
  match e with
  | Event.Punch Rand => Punch Rand s
  | Event.Kick Rand => Kick Rand s
  | Event.CrouchStart => CrouchStart s
  | Event.MoveForward Value => MoveForward Value s
  | Event.MoveRight Value => MoveRight Value s
  | Event.OnWindowOpen => NotifyBegin (some true) s
  | Event.OnWindowClose => NotifyEnd (some true) s
  | Event.OnAttackHit Pitch => OnAttackHit Pitch s
  | Event.Tick DeltaSeconds => Tick DeltaSeconds s

/-- The handlers of a sequence of events, run in order. -/
def run (s : AMeleeCharacter) (evs : List Event) : AMeleeCharacter :=
  evs.foldl step s

/-- Whether a call is a movement input. -/
def EngineCall.isMovement : EngineCall → Bool
  | EngineCall.AddMovementInput _ _ _ => true
  | _ => false

/-- Whether a call is an animation playback request. -/
def EngineCall.isPlayback : EngineCall → Bool
  | EngineCall.PlayAnimMontage _ _ _ => true
  | _ => false

/-- The section names a row offers: those of its montage, none when the
montage pointer is null. -/
def FAttackMontage.variants (Row : FAttackMontage) : List FName :=
  match Row.Montage with
  | some Montage => Montage.CompositeSections.map FCompositeSection.SectionName
  | none => []

/-! ## The readiness window, as a history of the events -/

/-- Clock and window start after one more event.  The first component is
the world time; the second is the time of the attack that opened the latest
readiness window.  An attack opens a new window when none was opened before
or the latest one is `ExitReadyTime` or more in the past; an attack inside a
running window does not move its start. -/
def windowStep (p : Nat × Option Nat) (e : Event) : Nat × Option Nat :=
  let opened : Option Nat :=
    match p.2 with
    | some a => if p.1 < a + ExitReadyTime then some a else some p.1
    | none => some p.1
  match e with
  | Event.Punch _ => (p.1, opened)
  | Event.Kick _ => (p.1, opened)
  | Event.Tick DeltaSeconds => (p.1 + DeltaSeconds, p.2)
  | _ => p

/-- Time of the attack that opened the latest readiness window in a
sequence of events starting at world time `t0`, `none` when the sequence
has no attack. -/
def windowOpenedAt (t0 : Nat) (evs : List Event) : Option Nat :=
  (evs.foldl windowStep (t0, none)).2

/-- World time after a sequence of events starting at world time `t0`. -/
def clockAfter (t0 : Nat) (evs : List Event) : Nat :=
  (evs.foldl windowStep (t0, none)).1

/-- Link between a character and the history of its events: the clock
agrees; a ready character has a timer pending for `ExitReadyTime` after the
start of the latest window, not yet reached; a character that is not ready
has no timer pending and any window opened is over. -/
def WindowInv (s : AMeleeCharacter) (p : Nat × Option Nat) : Prop :=
  s.World = some ⟨p.1⟩ ∧
  (s.bReady = true →
    ∃ a, p.2 = some a ∧ p.1 < a + ExitReadyTime ∧ s.ExitReadyTimer = some (a + ExitReadyTime)) ∧
  (s.bReady = false →
    s.ExitReadyTimer = none ∧ ∀ a, p.2 = some a → a + ExitReadyTime ≤ p.1)

/-! ## Example data -/

/-- A montage with three sections. -/
def punchMontage : UAnimMontage :=
  ⟨[⟨FName.Name "Punch1"⟩, ⟨FName.Name "Punch2"⟩, ⟨FName.Name "Punch3"⟩]⟩

/-- A montage with two sections. -/
def kickMontage : UAnimMontage :=
  ⟨[⟨FName.Name "Kick1"⟩, ⟨FName.Name "Kick2"⟩]⟩

/-- A complete attack table. -/
def attackTable : UDataTable :=
  ⟨[(FName.Name "Punch", ⟨some punchMontage, "punch"⟩),
    (FName.Name "Kick", ⟨some kickMontage, "kick"⟩)]⟩

/-- An attack table whose Kick montage has no sections. -/
def emptyKickTable : UDataTable :=
  ⟨[(FName.Name "Punch", ⟨some punchMontage, "punch"⟩),
    (FName.Name "Kick", ⟨some ⟨[]⟩, "kick"⟩)]⟩

/-- An example character: standing, not ready, no timer pending, hit volumes
closed, in a world at time 0, possessed by a controller looking along yaw
90, with the given attack table. -/
def spawned (Table : Option UDataTable) : AMeleeCharacter where
  AttackMontageDataTable := Table
  LeftAttackBox := ECollisionEnabled.NoCollision
  RightAttackBox := ECollisionEnabled.NoCollision
  AttackAudioComp := true
  bReady := false
  ExitReadyTimer := none
  bIsStanding := true
  bIsCrouched := false
  Controller := some ⟨0, 90, 0⟩
  World := some ⟨0⟩
  calls := []

/-! ## Lemmas on `Attack` -/

/-- The readiness step at the head of `Attack` leaves the character ready. -/
theorem enterReady_bReady (s : AMeleeCharacter) :
    (if (!s.bReady) = true then ReadyToFight s else s).bReady = true := by
  cases hb : s.bReady <;> cases hW : s.World <;> simp [ReadyToFight, hb, hW]

/-- The readiness step touches only the flag and the timer. -/
theorem enterReady_frame (s : AMeleeCharacter) :
    (if (!s.bReady) = true then ReadyToFight s else s).bIsStanding = s.bIsStanding ∧
    (if (!s.bReady) = true then ReadyToFight s else s).calls = s.calls ∧
    (if (!s.bReady) = true then ReadyToFight s else s).AttackMontageDataTable
      = s.AttackMontageDataTable ∧
    (if (!s.bReady) = true then ReadyToFight s else s).LeftAttackBox = s.LeftAttackBox ∧
    (if (!s.bReady) = true then ReadyToFight s else s).RightAttackBox = s.RightAttackBox ∧
    (if (!s.bReady) = true then ReadyToFight s else s).World = s.World ∧
    (if (!s.bReady) = true then ReadyToFight s else s).Controller = s.Controller ∧
    (if (!s.bReady) = true then ReadyToFight s else s).AttackAudioComp = s.AttackAudioComp ∧
    (if (!s.bReady) = true then ReadyToFight s else s).bIsCrouched = s.bIsCrouched := by
  cases hb : s.bReady <;> cases hW : s.World <;> simp [ReadyToFight, hb, hW]

/-- The timer after the readiness step, when the character was ready. -/
theorem enterReady_timer_of_ready (s : AMeleeCharacter) (hb : s.bReady = true) :
    (if (!s.bReady) = true then ReadyToFight s else s).ExitReadyTimer = s.ExitReadyTimer := by
  simp [hb]

/-- The timer after the readiness step, when the character was not ready. -/
theorem enterReady_timer_of_not_ready (s : AMeleeCharacter) (w : UWorld)
    (hb : s.bReady = false) (hW : s.World = some w) :
    (if (!s.bReady) = true then ReadyToFight s else s).ExitReadyTimer
      = some (w.TimeSeconds + ExitReadyTime) := by
  simp [ReadyToFight, hb, hW]

/-- After the readiness step, `Attack` changes only stance and call log. -/
theorem Attack_fields (Ty : EAttackType) (Rand : Nat) (s : AMeleeCharacter) :
    (Attack Ty Rand s).bReady = (if (!s.bReady) = true then ReadyToFight s else s).bReady ∧
    (Attack Ty Rand s).ExitReadyTimer
      = (if (!s.bReady) = true then ReadyToFight s else s).ExitReadyTimer ∧
    (Attack Ty Rand s).LeftAttackBox = s.LeftAttackBox ∧
    (Attack Ty Rand s).RightAttackBox = s.RightAttackBox ∧
    (Attack Ty Rand s).World = s.World ∧
    (Attack Ty Rand s).Controller = s.Controller ∧
    (Attack Ty Rand s).AttackMontageDataTable = s.AttackMontageDataTable ∧
    (Attack Ty Rand s).AttackAudioComp = s.AttackAudioComp ∧
    (Attack Ty Rand s).bIsCrouched = s.bIsCrouched := by
  have hf := enterReady_frame s
  unfold Attack
  simp only []
  generalize (if (!s.bReady) = true then ReadyToFight s else s) = s1 at hf ⊢
  obtain ⟨-, -, h3, h4, h5, h6, h7, h8, h9⟩ := hf
  rw [← h3, ← h4, ← h5, ← h6, ← h7, ← h8, ← h9]
  split
  · simp
  · cases Ty <;> simp only [selectRow] <;> repeat' split
    all_goals simp

theorem Attack_bReady (Ty : EAttackType) (Rand : Nat) (s : AMeleeCharacter) :
    (Attack Ty Rand s).bReady = true := by
  rw [(Attack_fields Ty Rand s).1]; exact enterReady_bReady s

/-- Stance after the `switch` of `Attack`. -/
theorem selectRow_snd_bIsStanding (Ty : EAttackType) (s : AMeleeCharacter) :
    (selectRow Ty s).2.bIsStanding = (s.bIsStanding && !decide (Ty = EAttackType.KICK)) := by
  cases Ty <;> cases hS : s.bIsStanding <;> simp [selectRow, hS]

/-- Stance after `Attack`: lowered exactly by a kick with a table present. -/
theorem Attack_bIsStanding (Ty : EAttackType) (Rand : Nat) (s : AMeleeCharacter) :
    (Attack Ty Rand s).bIsStanding
      = (s.bIsStanding &&
          !(decide (Ty = EAttackType.KICK) && s.AttackMontageDataTable.isSome)) := by
  have hf := enterReady_frame s
  unfold Attack
  simp only []
  generalize (if (!s.bReady) = true then ReadyToFight s else s) = s1 at hf ⊢
  obtain ⟨h1, -, h3, -⟩ := hf
  rw [← h1, ← h3]
  split
  · rename_i h; simp [h]
  · rename_i T h
    repeat' split
    all_goals simp [h, selectRow_snd_bIsStanding]

/-- The row name chosen depends on the stance only. -/
theorem selectRow_fst (Ty : EAttackType) (s t : AMeleeCharacter)
    (h : t.bIsStanding = s.bIsStanding) : (selectRow Ty t).1 = (selectRow Ty s).1 := by
  cases Ty <;> cases hS : s.bIsStanding <;> simp [selectRow, h, hS]

theorem selectRow_snd_calls (Ty : EAttackType) (s : AMeleeCharacter) :
    (selectRow Ty s).2.calls = s.calls := by
  cases Ty <;> cases hS : s.bIsStanding <;> simp [selectRow, hS]

/-- Without a table `Attack` issues no call. -/
theorem Attack_calls_no_table (Ty : EAttackType) (Rand : Nat) (s : AMeleeCharacter)
    (hT : s.AttackMontageDataTable = none) : (Attack Ty Rand s).calls = s.calls := by
  have hf := enterReady_frame s
  unfold Attack
  simp only []
  generalize (if (!s.bReady) = true then ReadyToFight s else s) = s1 at hf ⊢
  obtain ⟨-, h2, h3, -⟩ := hf
  rw [hT] at h3
  simp [h3, h2]

/-- With a table whose selected row is missing or offers no section, `Attack`
issues no call. -/
theorem Attack_calls_no_variant (Ty : EAttackType) (Rand : Nat) (s : AMeleeCharacter)
    (Table : UDataTable) (hT : s.AttackMontageDataTable = some Table)
    (hR : ∀ Row, Table.FindRow (selectRow Ty s).1 = some Row → Row.variants = []) :
    (Attack Ty Rand s).calls = s.calls := by
  have hf := enterReady_frame s
  unfold Attack
  simp only []
  generalize (if (!s.bReady) = true then ReadyToFight s else s) = s1 at hf ⊢
  obtain ⟨h1, h2, h3, -⟩ := hf
  rw [hT] at h3
  rw [← selectRow_fst Ty s s1 h1] at hR
  simp only [h3]
  split
  · rename_i Row hRow
    have hv := hR Row hRow
    split
    · rename_i Montage hM
      have hlen : Montage.CompositeSections.length = 0 := by
        simpa [FAttackMontage.variants, hM] using hv
      simp [hlen, selectRow_snd_calls, h2]
    · simp [selectRow_snd_calls, h2]
  · simp [selectRow_snd_calls, h2]

/-- With a table whose selected row has a montage with sections, `Attack`
issues one playback request, for the section at index `Rand % count`. -/
theorem Attack_calls_variant (Ty : EAttackType) (Rand : Nat) (s : AMeleeCharacter)
    (Table : UDataTable) (Row : FAttackMontage) (Montage : UAnimMontage)
    (hT : s.AttackMontageDataTable = some Table)
    (hR : Table.FindRow (selectRow Ty s).1 = some Row)
    (hM : Row.Montage = some Montage)
    (hc : 0 < Montage.CompositeSections.length) :
    (Attack Ty Rand s).calls = s.calls ++
      [EngineCall.PlayAnimMontage Montage 1
        (Montage.CompositeSections.get
          ⟨Rand % Montage.CompositeSections.length, Nat.mod_lt Rand hc⟩).SectionName] := by
  have hf := enterReady_frame s
  unfold Attack
  simp only []
  generalize (if (!s.bReady) = true then ReadyToFight s else s) = s1 at hf ⊢
  obtain ⟨h1, h2, h3, -⟩ := hf
  rw [hT] at h3
  rw [← selectRow_fst Ty s s1 h1] at hR
  simp only [h3, hR, hM, hc, dite_true, selectRow_snd_calls, h2]

/-- Every call issued by `Attack` is a playback request, and there is at
most one. -/
theorem Attack_calls_playback (Ty : EAttackType) (Rand : Nat) (s : AMeleeCharacter) :
    ∃ cs, (Attack Ty Rand s).calls = s.calls ++ cs ∧ cs.length ≤ 1 ∧
      ∀ c ∈ cs, c.isPlayback = true := by
  have hf := enterReady_frame s
  unfold Attack
  simp only []
  generalize (if (!s.bReady) = true then ReadyToFight s else s) = s1 at hf ⊢
  obtain ⟨-, h2, -⟩ := hf
  rw [← h2]
  split
  · exact ⟨[], by simp⟩
  · repeat' split
    · exact ⟨_, by simp only [selectRow_snd_calls]; rfl, by simp, by simp [EngineCall.isPlayback]⟩
    all_goals exact ⟨[], by simp [selectRow_snd_calls]⟩

/-! ## Attack: readiness, stance and animation request -/

/-- C1: for every character state and every attack type, `isReady` is true
immediately after `Attack` returns. -/
theorem attack_leaves_ready (Ty : EAttackType) (Rand : Nat) (s : AMeleeCharacter) :
    (Attack Ty Rand s).bReady = true :=
  Attack_bReady Ty Rand s

/-- C3: a Kick made while standing, with a table that has a Kick row, lowers
`isStanding`, leaves the character ready, and issues exactly one playback
request for a section of that row when the row offers sections, and no call
at all when it offers none. -/
theorem kick_while_standing (Rand : Nat) (s : AMeleeCharacter) (Table : UDataTable)
    (Row : FAttackMontage)
    (hS : s.bIsStanding = true)
    (hT : s.AttackMontageDataTable = some Table)
    (hR : Table.FindRow (FName.Name "Kick") = some Row) :
    (Attack EAttackType.KICK Rand s).bIsStanding = false ∧
    (Attack EAttackType.KICK Rand s).bReady = true ∧
    (Row.variants ≠ [] →
      ∃ Montage Section, Row.Montage = some Montage ∧
        Section ∈ Montage.CompositeSections ∧
        (Attack EAttackType.KICK Rand s).calls
          = s.calls ++ [EngineCall.PlayAnimMontage Montage 1 Section.SectionName]) ∧
    (Row.variants = [] → (Attack EAttackType.KICK Rand s).calls = s.calls) := by
  have hsel : (selectRow EAttackType.KICK s).1 = FName.Name "Kick" := by
    simp [selectRow, hS]
  refine ⟨?_, Attack_bReady _ _ _, ?_, ?_⟩
  · simp [Attack_bIsStanding, hT]
  · intro hv
    cases hM : Row.Montage with
    | none => simp [FAttackMontage.variants, hM] at hv
    | some Montage =>
      have hc : 0 < Montage.CompositeSections.length := by
        cases hl : Montage.CompositeSections with
        | nil => simp [FAttackMontage.variants, hM, hl] at hv
        | cons a l => simp
      exact ⟨Montage, _, rfl, List.get_mem _ _ _,
        Attack_calls_variant _ Rand s Table Row Montage hT (hsel ▸ hR) hM hc⟩
  · intro hv
    apply Attack_calls_no_variant _ Rand s Table hT
    intro Row2 h2
    rw [hsel, hR] at h2
    cases h2
    exact hv

/-- Witness for C3: one request from a two-section Kick row, none from a
Kick row without sections. -/
theorem kick_while_standing_witness :
    ((spawned (some attackTable)).bIsStanding = true ∧
      (Attack EAttackType.KICK 3 (spawned (some attackTable))).bIsStanding = false ∧
      (Attack EAttackType.KICK 3 (spawned (some attackTable))).bReady = true ∧
      (Attack EAttackType.KICK 3 (spawned (some attackTable))).calls
        = [EngineCall.PlayAnimMontage kickMontage 1 (FName.Name "Kick2")]) ∧
    ((spawned (some emptyKickTable)).bIsStanding = true ∧
      (Attack EAttackType.KICK 3 (spawned (some emptyKickTable))).bIsStanding = false ∧
      (Attack EAttackType.KICK 3 (spawned (some emptyKickTable))).bReady = true ∧
      (Attack EAttackType.KICK 3 (spawned (some emptyKickTable))).calls = []) := by
  have h1 := kick_while_standing 3 (spawned (some attackTable)) attackTable
    ⟨some kickMontage, "kick"⟩ (by decide) (by decide) (by decide)
  have h2 := kick_while_standing 3 (spawned (some emptyKickTable)) emptyKickTable
    ⟨some ⟨[]⟩, "kick"⟩ (by decide) (by decide) (by decide)
  exact ⟨⟨by decide, h1.1, h1.2.1, by decide⟩, ⟨by decide, h2.1, h2.2.1, h2.2.2.2 (by decide)⟩⟩

/-- C4: a Kick made while not standing, whatever the table, leaves
`isStanding` false, issues no call and leaves both hit volumes as they were;
and the second of two Kicks in a row, from any state `t`, changes neither
the stance nor the call log left by the first. -/
theorem kick_while_not_standing (Rand Rand1 Rand2 : Nat) (s t : AMeleeCharacter)
    (hS : s.bIsStanding = false) :
    ((Attack EAttackType.KICK Rand s).bIsStanding = false ∧
      (Attack EAttackType.KICK Rand s).calls = s.calls ∧
      (Attack EAttackType.KICK Rand s).LeftAttackBox = s.LeftAttackBox ∧
      (Attack EAttackType.KICK Rand s).RightAttackBox = s.RightAttackBox) ∧
    ((Attack EAttackType.KICK Rand2 (Attack EAttackType.KICK Rand1 t)).bIsStanding
        = (Attack EAttackType.KICK Rand1 t).bIsStanding ∧
      (Attack EAttackType.KICK Rand2 (Attack EAttackType.KICK Rand1 t)).calls
        = (Attack EAttackType.KICK Rand1 t).calls) := by
  have key : ∀ (R : Nat) (u : AMeleeCharacter),
      u.bIsStanding = false ∨ u.AttackMontageDataTable = none →
      (Attack EAttackType.KICK R u).calls = u.calls := by
    intro R u hu
    cases hT : u.AttackMontageDataTable with
    | none => exact Attack_calls_no_table _ R u hT
    | some Table =>
      have hst : u.bIsStanding = false := by
        rcases hu with h | h
        · exact h
        · rw [hT] at h; cases h
      apply Attack_calls_no_variant _ R u Table hT
      intro Row hRow
      simp [selectRow, hst, UDataTable.FindRow] at hRow
  refine ⟨⟨?_, key Rand s (Or.inl hS), (Attack_fields _ _ _).2.2.1,
    (Attack_fields _ _ _).2.2.2.1⟩, ?_, ?_⟩
  · simp [Attack_bIsStanding, hS]
  · rw [Attack_bIsStanding _ Rand2, (Attack_fields _ Rand1 t).2.2.2.2.2.2.1,
      Attack_bIsStanding _ Rand1]
    cases t.bIsStanding <;> cases t.AttackMontageDataTable <;> simp
  · apply key
    cases hT : t.AttackMontageDataTable with
    | none => right; rw [(Attack_fields _ Rand1 t).2.2.2.2.2.2.1, hT]
    | some Table => left; simp [Attack_bIsStanding, hT]

/-- Witness for C4: a second Kick after a first one on a complete table. -/
theorem kick_while_not_standing_witness :
    (Attack EAttackType.KICK 1 (spawned (some attackTable))).bIsStanding = false ∧
    ((Attack EAttackType.KICK 2 (Attack EAttackType.KICK 1 (spawned (some attackTable)))).bIsStanding
        = false ∧
      (Attack EAttackType.KICK 2 (Attack EAttackType.KICK 1 (spawned (some attackTable)))).calls
        = (Attack EAttackType.KICK 1 (spawned (some attackTable))).calls ∧
      (Attack EAttackType.KICK 2 (Attack EAttackType.KICK 1 (spawned (some attackTable)))).LeftAttackBox
        = ECollisionEnabled.NoCollision ∧
      (Attack EAttackType.KICK 2 (Attack EAttackType.KICK 1 (spawned (some attackTable)))).RightAttackBox
        = ECollisionEnabled.NoCollision) ∧
    ((Attack EAttackType.KICK 2 (Attack EAttackType.KICK 1 (spawned (some attackTable)))).bIsStanding
        = (Attack EAttackType.KICK 1 (spawned (some attackTable))).bIsStanding ∧
      (Attack EAttackType.KICK 2 (Attack EAttackType.KICK 1 (spawned (some attackTable)))).calls
        = (Attack EAttackType.KICK 1 (spawned (some attackTable))).calls) :=
  ⟨by decide,
    kick_while_not_standing 2 1 2 (Attack EAttackType.KICK 1 (spawned (some attackTable)))
      (spawned (some attackTable)) (by decide)⟩

/-- C5, as the claim states it, fails: with the table asset absent a Kick made
while standing leaves `isStanding` true, whereas the same Kick with a
complete table sets it to false. -/
theorem absent_table_kick_keeps_standing :
    (spawned none).bIsStanding = true ∧
    (spawned none).AttackMontageDataTable = none ∧
    ¬ (Attack EAttackType.KICK 0 (spawned none)).bIsStanding = false ∧
    (Attack EAttackType.KICK 0 (spawned (some attackTable))).bIsStanding = false := by
  decide

/-- C5, amended: when the table asset is absent, or the selected row is
missing, or the row offers no section, `Attack` issues no call and leaves the
character ready; with the table present the stance is lowered by a Kick
whatever the rows hold, and with the table absent the stance is left as it
was. -/
theorem catalog_failures_absorbed (Ty : EAttackType) (Rand : Nat) (s : AMeleeCharacter)
    (hfail : s.AttackMontageDataTable = none ∨
      ∃ Table, s.AttackMontageDataTable = some Table ∧
        ∀ Row, Table.FindRow (selectRow Ty s).1 = some Row → Row.variants = []) :
    (Attack Ty Rand s).calls = s.calls ∧
    (Attack Ty Rand s).bReady = true ∧
    (s.AttackMontageDataTable = none → (Attack Ty Rand s).bIsStanding = s.bIsStanding) ∧
    (s.AttackMontageDataTable ≠ none →
      (Attack Ty Rand s).bIsStanding = (s.bIsStanding && !decide (Ty = EAttackType.KICK))) := by
  refine ⟨?_, Attack_bReady _ _ _, ?_, ?_⟩
  · rcases hfail with h | ⟨Table, hT, hR⟩
    · exact Attack_calls_no_table _ _ _ h
    · exact Attack_calls_no_variant _ _ _ Table hT hR
  · intro h; simp [Attack_bIsStanding, h]
  · intro h
    cases hT : s.AttackMontageDataTable with
    | none => exact absurd hT h
    | some Table => simp [Attack_bIsStanding, hT]

/-- Witness for C5 amended: an absent table, and a Kick row without sections. -/
theorem catalog_failures_absorbed_witness :
    ((spawned none).AttackMontageDataTable = none ∧
      (Attack EAttackType.KICK 5 (spawned none)).calls = [] ∧
      (Attack EAttackType.KICK 5 (spawned none)).bReady = true ∧
      (Attack EAttackType.KICK 5 (spawned none)).bIsStanding = true) ∧
    ((Attack EAttackType.KICK 5 (spawned (some emptyKickTable))).calls = [] ∧
      (Attack EAttackType.KICK 5 (spawned (some emptyKickTable))).bReady = true ∧
      (Attack EAttackType.KICK 5 (spawned (some emptyKickTable))).bIsStanding = false) := by
  have h1 := catalog_failures_absorbed EAttackType.KICK 5 (spawned none) (Or.inl rfl)
  have h2 := catalog_failures_absorbed EAttackType.KICK 5 (spawned (some emptyKickTable))
    (Or.inr ⟨emptyKickTable, rfl, by
      intro Row hRow
      have hk : emptyKickTable.FindRow
          (selectRow EAttackType.KICK (spawned (some emptyKickTable))).1
          = some ⟨some ⟨[]⟩, "kick"⟩ := by decide
      rw [hk] at hRow
      cases hRow
      rfl⟩)
  exact ⟨⟨rfl, h1.1, h1.2.1, h1.2.2.1 rfl⟩, ⟨h2.1, h2.2.1, h2.2.2.2 (by decide)⟩⟩

/-- C6: with a table whose Punch row offers `count > 0` sections, and for
every value of the random source, a Punch issues exactly one playback
request, for the section at an index `i` with `i < count`, leaves the
character ready and does not change the stance. -/
theorem punch_plays_one_variant (Rand : Nat) (s : AMeleeCharacter) (Table : UDataTable)
    (Row : FAttackMontage)
    (hT : s.AttackMontageDataTable = some Table)
    (hR : Table.FindRow (FName.Name "Punch") = some Row)
    (hc : 0 < Row.variants.length) :
    (∃ Montage i Name, Row.Montage = some Montage ∧
      i = Rand % Row.variants.length ∧ i < Row.variants.length ∧
      Row.variants[i]? = some Name ∧
      (Attack EAttackType.PUNCH Rand s).calls
        = s.calls ++ [EngineCall.PlayAnimMontage Montage 1 Name]) ∧
    (Attack EAttackType.PUNCH Rand s).bReady = true ∧
    (Attack EAttackType.PUNCH Rand s).bIsStanding = s.bIsStanding := by
  refine ⟨?_, Attack_bReady _ _ _, by simp [Attack_bIsStanding]⟩
  cases hM : Row.Montage with
  | none => simp [FAttackMontage.variants, hM] at hc
  | some Montage =>
    have hv : Row.variants = Montage.CompositeSections.map FCompositeSection.SectionName := by
      simp [FAttackMontage.variants, hM]
    have hlen : Row.variants.length = Montage.CompositeSections.length := by
      rw [hv, List.length_map]
    have hc2 : 0 < Montage.CompositeSections.length := hlen ▸ hc
    have hlt : Rand % Montage.CompositeSections.length < Montage.CompositeSections.length :=
      Nat.mod_lt Rand hc2
    refine ⟨Montage, Rand % Row.variants.length, _, rfl, rfl, Nat.mod_lt Rand hc, ?_,
      Attack_calls_variant _ Rand s Table Row Montage hT (by simpa [selectRow] using hR) hM hc2⟩
    rw [hv]
    simp [List.getElem?_map, List.getElem?_eq_getElem hlt]

/-- Witness for C6: a Punch row with three sections and the random value 7
give one request, for the section at index 1. -/
theorem punch_plays_one_variant_witness :
    (spawned (some attackTable)).AttackMontageDataTable = some attackTable ∧
    (⟨some punchMontage, "punch"⟩ : FAttackMontage).variants.length = 3 ∧
    (Attack EAttackType.PUNCH 7 (spawned (some attackTable))).calls
      = [EngineCall.PlayAnimMontage punchMontage 1 (FName.Name "Punch2")] ∧
    (Attack EAttackType.PUNCH 7 (spawned (some attackTable))).bReady = true ∧
    (Attack EAttackType.PUNCH 7 (spawned (some attackTable))).bIsStanding = true := by
  have h := punch_plays_one_variant 7 (spawned (some attackTable)) attackTable
    ⟨some punchMontage, "punch"⟩ (by decide) (by decide) (by decide)
  exact ⟨by decide, by decide, by decide, h.2.1, h.2.2⟩

/-! ## Hit window -/

/-- C7: the window-open notification leaves both hit volumes active (query and
physics), the window-close notification leaves both inactive, so after
either the two volumes are in the same state; and neither changes `isReady`
or the readiness timer. -/
theorem hit_window_sets_both_volumes (s : AMeleeCharacter) :
    (NotifyBegin (some true) s = OnAttackEnableChanged true s ∧
      (NotifyBegin (some true) s).LeftAttackBox = ECollisionEnabled.QueryAndPhysics ∧
      (NotifyBegin (some true) s).RightAttackBox = ECollisionEnabled.QueryAndPhysics) ∧
    (NotifyEnd (some true) s = OnAttackEnableChanged false s ∧
      (NotifyEnd (some true) s).LeftAttackBox = ECollisionEnabled.NoCollision ∧
      (NotifyEnd (some true) s).RightAttackBox = ECollisionEnabled.NoCollision) ∧
    (∀ Enable, (OnAttackEnableChanged Enable s).LeftAttackBox
        = (OnAttackEnableChanged Enable s).RightAttackBox ∧
      (OnAttackEnableChanged Enable s).bReady = s.bReady ∧
      (OnAttackEnableChanged Enable s).ExitReadyTimer = s.ExitReadyTimer) := by
  refine ⟨⟨rfl, rfl, rfl⟩, ⟨rfl, rfl, rfl⟩, ?_⟩
  intro Enable
  cases Enable <;> simp [OnAttackEnableChanged]

/-! ## Lemmas on the other handlers and on event sequences -/

/-- Handler `CrouchStart` only appends a crouch request. -/
theorem CrouchStart_frame (s : AMeleeCharacter) :
    (CrouchStart s).bIsStanding = s.bIsStanding ∧ (CrouchStart s).bReady = s.bReady ∧
    (CrouchStart s).ExitReadyTimer = s.ExitReadyTimer ∧ (CrouchStart s).World = s.World ∧
    (CrouchStart s).calls.filter EngineCall.isMovement
      = s.calls.filter EngineCall.isMovement := by
  cases h : s.bIsCrouched <;> simp [CrouchStart, h, EngineCall.isMovement]

/-- Handler `OnAttackHit` only appends audio calls. -/
theorem OnAttackHit_frame (Pitch : Nat) (s : AMeleeCharacter) :
    (OnAttackHit Pitch s).bIsStanding = s.bIsStanding ∧
    (OnAttackHit Pitch s).bReady = s.bReady ∧
    (OnAttackHit Pitch s).ExitReadyTimer = s.ExitReadyTimer ∧
    (OnAttackHit Pitch s).World = s.World ∧
    (OnAttackHit Pitch s).calls.filter EngineCall.isMovement
      = s.calls.filter EngineCall.isMovement := by
  cases h : s.AttackAudioComp <;> simp [OnAttackHit, h, EngineCall.isMovement]

/-- Handler `MoveForward` only appends to the call log. -/
theorem MoveForward_frame (Value : Int) (s : AMeleeCharacter) :
    (MoveForward Value s).bIsStanding = s.bIsStanding ∧
    (MoveForward Value s).bReady = s.bReady ∧
    (MoveForward Value s).ExitReadyTimer = s.ExitReadyTimer ∧
    (MoveForward Value s).World = s.World := by
  unfold MoveForward
  repeat' split
  all_goals simp

/-- Handler `MoveRight` only appends to the call log. -/
theorem MoveRight_frame (Value : Int) (s : AMeleeCharacter) :
    (MoveRight Value s).bIsStanding = s.bIsStanding ∧
    (MoveRight Value s).bReady = s.bReady ∧
    (MoveRight Value s).ExitReadyTimer = s.ExitReadyTimer ∧
    (MoveRight Value s).World = s.World := by
  unfold MoveRight
  repeat' split
  all_goals simp

/-- While not standing, `MoveForward` does nothing. -/
theorem MoveForward_not_standing (Value : Int) (s : AMeleeCharacter)
    (hS : s.bIsStanding = false) : MoveForward Value s = s := by
  unfold MoveForward
  cases s.Controller <;> simp [hS]

/-- While not standing, `MoveRight` does nothing. -/
theorem MoveRight_not_standing (Value : Int) (s : AMeleeCharacter)
    (hS : s.bIsStanding = false) : MoveRight Value s = s := by
  unfold MoveRight
  cases s.Controller <;> simp [hS]

/-- Handler `OnAttackEnableChanged` leaves readiness, timer, clock and calls alone. -/
theorem OnAttackEnableChanged_frame (Enable : Bool) (s : AMeleeCharacter) :
    (OnAttackEnableChanged Enable s).bReady = s.bReady ∧
    (OnAttackEnableChanged Enable s).ExitReadyTimer = s.ExitReadyTimer ∧
    (OnAttackEnableChanged Enable s).World = s.World ∧
    (OnAttackEnableChanged Enable s).calls = s.calls := by
  cases Enable <;> simp [OnAttackEnableChanged]

/-- Handler `Tick` leaves stance and calls alone. -/
theorem Tick_frame (DeltaSeconds : Nat) (s : AMeleeCharacter) :
    (Tick DeltaSeconds s).bIsStanding = s.bIsStanding ∧
    (Tick DeltaSeconds s).calls = s.calls := by
  unfold Tick
  cases hW : s.World <;> cases hT : s.ExitReadyTimer <;> simp only [ExitReadyTimeout]
  all_goals first | exact ⟨trivial, trivial⟩ | exact ⟨rfl, rfl⟩ | (split <;> exact ⟨rfl, rfl⟩)

/-- An event other than window-close keeps a character that is not standing
not standing, and adds no movement input. -/
theorem step_not_standing (s : AMeleeCharacter) (e : Event)
    (hS : s.bIsStanding = false) (he : e ≠ Event.OnWindowClose) :
    (step s e).bIsStanding = false ∧
    (step s e).calls.filter EngineCall.isMovement
      = s.calls.filter EngineCall.isMovement := by
  have attack : ∀ Ty Rand, (Attack Ty Rand s).bIsStanding = false ∧
      (Attack Ty Rand s).calls.filter EngineCall.isMovement
        = s.calls.filter EngineCall.isMovement := by
    intro Ty Rand
    refine ⟨by simp [Attack_bIsStanding, hS], ?_⟩
    obtain ⟨cs, hcs, -, hp⟩ := Attack_calls_playback Ty Rand s
    rw [hcs, List.filter_append]
    have : cs.filter EngineCall.isMovement = [] := by
      rw [List.filter_eq_nil_iff]
      intro c hc
      have := hp c hc
      cases c <;> simp_all [EngineCall.isMovement, EngineCall.isPlayback]
    rw [this, List.append_nil]
  cases e with
  | Punch Rand => exact attack _ Rand
  | Kick Rand => exact attack _ Rand
  | CrouchStart =>
    exact ⟨(CrouchStart_frame s).1.trans hS, (CrouchStart_frame s).2.2.2.2⟩
  | MoveForward Value => simp [step, MoveForward_not_standing Value s hS, hS]
  | MoveRight Value => simp [step, MoveRight_not_standing Value s hS, hS]
  | OnWindowOpen => simp [step, NotifyBegin, OnAttackEnableChanged, hS]
  | OnWindowClose => exact absurd rfl he
  | OnAttackHit Pitch =>
    exact ⟨(OnAttackHit_frame Pitch s).1.trans hS, (OnAttackHit_frame Pitch s).2.2.2.2⟩
  | Tick DeltaSeconds =>
    have h := Tick_frame DeltaSeconds s
    simp only [step]
    rw [h.1, h.2]
    exact ⟨hS, rfl⟩

/-- A sequence without window-close keeps a character that is not standing
not standing, and adds no movement input. -/
theorem run_not_standing (evs : List Event) (s : AMeleeCharacter)
    (hS : s.bIsStanding = false) (hno : Event.OnWindowClose ∉ evs) :
    (run s evs).bIsStanding = false ∧
    (run s evs).calls.filter EngineCall.isMovement
      = s.calls.filter EngineCall.isMovement := by
  induction evs generalizing s with
  | nil => exact ⟨hS, rfl⟩
  | cons e evs ih =>
    have he : e ≠ Event.OnWindowClose := fun h => hno (h ▸ List.mem_cons_self _ _)
    have hrest : Event.OnWindowClose ∉ evs := fun h => hno (List.mem_cons_of_mem _ h)
    have h1 := step_not_standing s e hS he
    have h2 := ih (step s e) h1.1 hrest
    simp only [run, List.foldl_cons] at h2 ⊢
    exact ⟨h2.1, h2.2.trans h1.2⟩

/-! ## Stance recovery, hits and locomotion -/

/-- C8: window-close leaves `isStanding` true from every prior state `u`; no
other operation turns `isStanding` from false to true; and after a Kick that
lowered the stance, `isStanding` stays false over every sequence of events
that has no window-close. -/
theorem window_close_alone_restores_standing (s t u : AMeleeCharacter) (Table : UDataTable)
    (Ty : EAttackType) (Rand DeltaSeconds Pitch : Nat) (Value : Int) (e : Event)
    (evs : List Event)
    (hS : s.bIsStanding = false)
    (he : e ≠ Event.OnWindowClose)
    (hno : Event.OnWindowClose ∉ evs)
    (hT : t.AttackMontageDataTable = some Table) :
    ((OnAttackEnableChanged false u).bIsStanding = true ∧
      (step u Event.OnWindowClose).bIsStanding = true) ∧
    ((Attack Ty Rand s).bIsStanding = false ∧
      (OnAttackEnableChanged true s).bIsStanding = false ∧
      (ExitReadyTimeout s).bIsStanding = false ∧
      (Tick DeltaSeconds s).bIsStanding = false ∧
      (OnAttackHit Pitch s).bIsStanding = false ∧
      (MoveForward Value s).bIsStanding = false ∧
      (MoveRight Value s).bIsStanding = false ∧
      (CrouchStart s).bIsStanding = false ∧
      (step s e).bIsStanding = false) ∧
    (run s evs).bIsStanding = false ∧
    (run (Kick Rand t) evs).bIsStanding = false := by
  refine ⟨⟨rfl, rfl⟩, ⟨?_, ?_, ?_, ?_, ?_, ?_, ?_, ?_, ?_⟩, ?_, ?_⟩
  · simp [Attack_bIsStanding, hS]
  · simp [OnAttackEnableChanged, hS]
  · simp [ExitReadyTimeout, hS]
  · exact (Tick_frame DeltaSeconds s).1.trans hS
  · exact (OnAttackHit_frame Pitch s).1.trans hS
  · exact (MoveForward_frame Value s).1.trans hS
  · exact (MoveRight_frame Value s).1.trans hS
  · exact (CrouchStart_frame s).1.trans hS
  · exact (step_not_standing s e hS he).1
  · exact (run_not_standing evs s hS hno).1
  · apply (run_not_standing evs (Kick Rand t) _ hno).1
    simp [Kick, Attack_bIsStanding, hT]

/-- Witness for C8: after a Kick the stance stays lowered through attacks,
movement, crouch, a hit, window-open and the readiness timeout. -/
theorem window_close_alone_restores_standing_witness :
    (Attack EAttackType.KICK 0 (spawned (some attackTable))).bIsStanding = false ∧
    (run (Kick 0 (spawned (some attackTable)))
      [Event.OnWindowOpen, Event.Punch 1, Event.MoveForward 1, Event.CrouchStart,
        Event.OnAttackHit 2, Event.Kick 3, Event.Tick 5]).bIsStanding = false ∧
    (step (Attack EAttackType.KICK 0 (spawned (some attackTable)))
      Event.OnWindowClose).bIsStanding = true :=
  have h := window_close_alone_restores_standing
    (Attack EAttackType.KICK 0 (spawned (some attackTable))) (spawned (some attackTable))
    (Attack EAttackType.KICK 0 (spawned (some attackTable))) attackTable
    EAttackType.PUNCH 0 1 2 1 Event.OnWindowOpen
    [Event.OnWindowOpen, Event.Punch 1, Event.MoveForward 1, Event.CrouchStart,
      Event.OnAttackHit 2, Event.Kick 3, Event.Tick 5]
    (by decide) (by decide) (by decide) (by decide)
  ⟨by decide, h.2.2.2, h.1.2⟩

/-- C9, as the claim states it, fails: after window-close has deactivated
both hit volumes, a hit injected into the handler still issues a set-pitch
and a play request. -/
theorem hit_after_window_close_plays_audio :
    (NotifyEnd (some true) (spawned (some attackTable))).LeftAttackBox
      = ECollisionEnabled.NoCollision ∧
    (NotifyEnd (some true) (spawned (some attackTable))).RightAttackBox
      = ECollisionEnabled.NoCollision ∧
    (OnAttackHit 7 (NotifyEnd (some true) (spawned (some attackTable)))).calls
      = [EngineCall.SetPitchMultiplier 7, EngineCall.Play] := by
  decide

/-- C9, amended: the hit handler does not look at the hit volumes.  In every
state with an audio component, also right after window-close and whatever
the collision modes `L` and `R` of the two volumes, a hit issues exactly one
set-pitch and one play request. -/
theorem hit_handler_ignores_volumes (Pitch : Nat) (s : AMeleeCharacter)
    (L R : ECollisionEnabled) (hA : s.AttackAudioComp = true) :
    (OnAttackHit Pitch (OnAttackEnableChanged false s)).calls
      = s.calls ++ [EngineCall.SetPitchMultiplier Pitch, EngineCall.Play] ∧
    (OnAttackHit Pitch { s with LeftAttackBox := L, RightAttackBox := R }).calls
      = s.calls ++ [EngineCall.SetPitchMultiplier Pitch, EngineCall.Play] := by
  simp [OnAttackHit, OnAttackEnableChanged, hA]

/-- Witness for C9 amended. -/
theorem hit_handler_ignores_volumes_witness :
    (spawned none).AttackAudioComp = true ∧
    (OnAttackHit 9 (OnAttackEnableChanged false (spawned none))).calls
      = [EngineCall.SetPitchMultiplier 9, EngineCall.Play] :=
  ⟨by decide,
    (hit_handler_ignores_volumes 9 (spawned none) ECollisionEnabled.NoCollision
      ECollisionEnabled.NoCollision (by decide)).1⟩

/-- C10: while not standing (`s`), `MoveForward` and `MoveRight` add no
movement input for any axis value; while standing with a controller (`t`,
whatever its attack table) they add one exactly when the value is not zero;
and from a Kick that lowered the stance (`k`, any controller), no movement
input is added over any sequence of events without window-close. -/
theorem locomotion_gated_by_stance (s t k : AMeleeCharacter) (Table : UDataTable)
    (Rotation : FRotator) (Value : Int) (Rand : Nat) (evs : List Event)
    (hS : s.bIsStanding = false)
    (ht : t.bIsStanding = true)
    (hC : t.Controller = some Rotation)
    (hT : k.AttackMontageDataTable = some Table)
    (hno : Event.OnWindowClose ∉ evs) :
    (MoveForward Value s = s ∧ MoveRight Value s = s) ∧
    (Value ≠ 0 →
      (MoveForward Value t).calls = t.calls ++
        [EngineCall.AddMovementInput ⟨0, Rotation.Yaw, 0⟩ EAxis.X Value] ∧
      (MoveRight Value t).calls = t.calls ++
        [EngineCall.AddMovementInput ⟨0, Rotation.Yaw, 0⟩ EAxis.Y Value]) ∧
    (Value = 0 → MoveForward Value t = t ∧ MoveRight Value t = t) ∧
    (run (Kick Rand k) evs).calls.filter EngineCall.isMovement
      = k.calls.filter EngineCall.isMovement := by
  refine ⟨⟨MoveForward_not_standing Value s hS, MoveRight_not_standing Value s hS⟩, ?_, ?_, ?_⟩
  · intro hv; simp [MoveForward, MoveRight, hC, hv, ht]
  · intro hv; simp [MoveForward, MoveRight, hC, hv]
  · have hk : (Kick Rand k).bIsStanding = false := by
      simp [Kick, Attack_bIsStanding, hT]
    rw [(run_not_standing evs (Kick Rand k) hk hno).2]
    obtain ⟨cs, hcs, -, hp⟩ := Attack_calls_playback EAttackType.KICK Rand k
    simp only [Kick]
    rw [hcs, List.filter_append]
    have : cs.filter EngineCall.isMovement = [] := by
      rw [List.filter_eq_nil_iff]
      intro c hc
      have := hp c hc
      cases c <;> simp_all [EngineCall.isMovement, EngineCall.isPlayback]
    rw [this, List.append_nil]

/-- Witness for C10: a standing character without attack table accepts
movement input on both axes; between a Kick and the window-close movement
input on both axes is dropped. -/
theorem locomotion_gated_by_stance_witness :
    (MoveForward 1 (Kick 0 (spawned (some attackTable)))
      = Kick 0 (spawned (some attackTable))) ∧
    (MoveRight 1 (Kick 0 (spawned (some attackTable)))
      = Kick 0 (spawned (some attackTable))) ∧
    (MoveForward 1 (spawned none)).calls
      = [EngineCall.AddMovementInput ⟨0, 90, 0⟩ EAxis.X 1] ∧
    (MoveRight 1 (spawned none)).calls
      = [EngineCall.AddMovementInput ⟨0, 90, 0⟩ EAxis.Y 1] ∧
    ((run (Kick 0 (spawned (some attackTable)))
      [Event.MoveForward 1, Event.MoveRight (-1), Event.Punch 2]).calls.filter
        EngineCall.isMovement = []) := by
  have h := locomotion_gated_by_stance (Kick 0 (spawned (some attackTable)))
    (spawned none) (spawned (some attackTable)) attackTable ⟨0, 90, 0⟩ 1 0
    [Event.MoveForward 1, Event.MoveRight (-1), Event.Punch 2]
    (by decide) (by decide) (by decide) (by decide) (by decide)
  exact ⟨h.1.1, h.1.2, (h.2.1 (by decide)).1, (h.2.1 (by decide)).2, h.2.2.2⟩

/-! ## The readiness window over timed sequences -/

/-- What `Tick` does to clock, flag and timer. -/
theorem Tick_ready (DeltaSeconds : Nat) (s : AMeleeCharacter) (w : UWorld)
    (hW : s.World = some w) :
    (Tick DeltaSeconds s).World = some ⟨w.TimeSeconds + DeltaSeconds⟩ ∧
    (∀ d, s.ExitReadyTimer = some d → d ≤ w.TimeSeconds + DeltaSeconds →
      (Tick DeltaSeconds s).bReady = false ∧ (Tick DeltaSeconds s).ExitReadyTimer = none) ∧
    (∀ d, s.ExitReadyTimer = some d → w.TimeSeconds + DeltaSeconds < d →
      (Tick DeltaSeconds s).bReady = s.bReady ∧
      (Tick DeltaSeconds s).ExitReadyTimer = some d) ∧
    (s.ExitReadyTimer = none →
      (Tick DeltaSeconds s).bReady = s.bReady ∧ (Tick DeltaSeconds s).ExitReadyTimer = none) := by
  unfold Tick
  simp only [hW]
  cases hT : s.ExitReadyTimer with
  | none => simp
  | some d0 =>
    by_cases hd : d0 ≤ w.TimeSeconds + DeltaSeconds
    · simp [hd, ExitReadyTimeout]
    · simp [hd, ExitReadyTimeout]
      omega

/-- An attack keeps the link. -/
theorem Attack_WindowInv (Ty : EAttackType) (Rand : Nat) (s : AMeleeCharacter)
    (p : Nat × Option Nat) (h : WindowInv s p) :
    WindowInv (Attack Ty Rand s)
      (p.1, match p.2 with
        | some a => if p.1 < a + ExitReadyTime then some a else some p.1
        | none => some p.1) := by
  obtain ⟨hW, hr, hn⟩ := h
  obtain ⟨f1, f2, -, -, f5, -⟩ := Attack_fields Ty Rand s
  refine ⟨f5.trans hW, ?_, ?_⟩
  · intro _
    cases hb : s.bReady with
    | true =>
      obtain ⟨a, ha, hlt, htm⟩ := hr hb
      refine ⟨a, by simp [ha, hlt], hlt, ?_⟩
      rw [f2, enterReady_timer_of_ready s hb, htm]
    | false =>
      obtain ⟨-, hover⟩ := hn hb
      refine ⟨p.1, ?_, by simp [ExitReadyTime], ?_⟩
      · cases hp : p.2 with
        | none => rfl
        | some a =>
          have := hover a hp
          have hnot : ¬ p.1 < a + ExitReadyTime := by omega
          simp [hnot]
      · rw [f2, enterReady_timer_of_not_ready s ⟨p.1⟩ hb hW]
  · intro hb
    rw [Attack_bReady] at hb
    cases hb

/-- Every event keeps the link. -/
theorem step_WindowInv (s : AMeleeCharacter) (p : Nat × Option Nat) (e : Event)
    (h : WindowInv s p) : WindowInv (step s e) (windowStep p e) := by
  have keep : ∀ u : AMeleeCharacter, u.World = s.World → u.bReady = s.bReady →
      u.ExitReadyTimer = s.ExitReadyTimer → WindowInv u p := by
    intro u h1 h2 h3
    unfold WindowInv
    rw [h1, h2, h3]
    exact h
  cases e with
  | Punch Rand => exact Attack_WindowInv _ Rand s p h
  | Kick Rand => exact Attack_WindowInv _ Rand s p h
  | CrouchStart =>
    have f := CrouchStart_frame s
    exact keep _ f.2.2.2.1 f.2.1 f.2.2.1
  | MoveForward Value =>
    have f := MoveForward_frame Value s
    exact keep _ f.2.2.2 f.2.1 f.2.2.1
  | MoveRight Value =>
    have f := MoveRight_frame Value s
    exact keep _ f.2.2.2 f.2.1 f.2.2.1
  | OnWindowOpen =>
    have f := OnAttackEnableChanged_frame true s
    exact keep _ f.2.2.1 f.1 f.2.1
  | OnWindowClose =>
    have f := OnAttackEnableChanged_frame false s
    exact keep _ f.2.2.1 f.1 f.2.1
  | OnAttackHit Pitch =>
    have f := OnAttackHit_frame Pitch s
    exact keep _ f.2.2.2.1 f.2.1 f.2.2.1
  | Tick DeltaSeconds =>
    obtain ⟨hW, hr, hn⟩ := h
    obtain ⟨t1, t2, t3, t4⟩ := Tick_ready DeltaSeconds s ⟨p.1⟩ hW
    simp only [] at t1 t2 t3
    simp only [step, windowStep]
    refine ⟨t1, ?_, ?_⟩
    · intro hb
      cases hs : s.bReady with
      | true =>
        obtain ⟨a, ha, hlt, htm⟩ := hr hs
        by_cases hd : a + ExitReadyTime ≤ p.1 + DeltaSeconds
        · rw [(t2 _ htm hd).1] at hb; cases hb
        · exact ⟨a, ha, by omega, (t3 _ htm (by omega)).2⟩
      | false =>
        obtain ⟨htm, -⟩ := hn hs
        rw [(t4 htm).1, hs] at hb; cases hb
    · intro hb
      cases hs : s.bReady with
      | true =>
        obtain ⟨a, ha, hlt, htm⟩ := hr hs
        by_cases hd : a + ExitReadyTime ≤ p.1 + DeltaSeconds
        · refine ⟨(t2 _ htm hd).2, ?_⟩
          intro b hbp
          rw [ha] at hbp
          cases hbp
          exact hd
        · rw [(t3 _ htm (by omega)).1, hs] at hb; cases hb
      | false =>
        obtain ⟨htm, hover⟩ := hn hs
        refine ⟨(t4 htm).2, ?_⟩
        intro b hbp
        have := hover b hbp
        show b + ExitReadyTime ≤ p.1 + DeltaSeconds
        omega

/-- A sequence of events keeps the link. -/
theorem run_WindowInv (evs : List Event) (s : AMeleeCharacter) (p : Nat × Option Nat)
    (h : WindowInv s p) : WindowInv (run s evs) (evs.foldl windowStep p) := by
  induction evs generalizing s p with
  | nil => exact h
  | cons e evs ih => exact ih (step s e) (windowStep p e) (step_WindowInv s p e h)

/-- C2, as the claim states it, fails: an attack made while already ready
leaves the pending deadline where it was.  A Punch at time 0 arms the timer
for time 4; a Kick at time 3 does not move it to 7; at time 5 the character
is no longer ready, two time units after its latest attack. -/
theorem attack_while_ready_keeps_deadline :
    (run (spawned (some attackTable)) [Event.Punch 0, Event.Tick 3]).ExitReadyTimer
      = some 4 ∧
    (run (spawned (some attackTable))
      [Event.Punch 0, Event.Tick 3, Event.Kick 0]).ExitReadyTimer = some 4 ∧
    (run (spawned (some attackTable))
      [Event.Punch 0, Event.Tick 3, Event.Kick 0]).World = some ⟨3⟩ ∧
    (run (spawned (some attackTable))
      [Event.Punch 0, Event.Tick 3, Event.Kick 0, Event.Tick 2]).World = some ⟨5⟩ ∧
    (run (spawned (some attackTable))
      [Event.Punch 0, Event.Tick 3, Event.Kick 0, Event.Tick 2]).bReady = false := by
  decide

/-- C2, amended: an attack made while not ready (in a world `w`) arms the
readiness deadline at now + `ExitReadyTime`; an attack made while already
ready, a rejected Kick included, leaves the pending deadline unchanged.  So
over every timed sequence of events, from a character `s0` that is not ready
with no timer pending at time `t0`, `isReady` is true exactly when the attack
that opened the latest readiness window occurred less than `ExitReadyTime`
ago, and the deadline then pending is `ExitReadyTime` after that attack. -/
theorem readiness_window (Ty : EAttackType) (Rand : Nat) (s : AMeleeCharacter) (w : UWorld)
    (s0 : AMeleeCharacter) (t0 : Nat) (evs : List Event)
    (hW : s.World = some w)
    (h0 : s0.World = some ⟨t0⟩)
    (hr0 : s0.bReady = false)
    (ht0 : s0.ExitReadyTimer = none) :
    (s.bReady = false →
      (Attack Ty Rand s).ExitReadyTimer = some (w.TimeSeconds + ExitReadyTime)) ∧
    (s.bReady = true → (Attack Ty Rand s).ExitReadyTimer = s.ExitReadyTimer) ∧
    (run s0 evs).World = some ⟨clockAfter t0 evs⟩ ∧
    ((run s0 evs).bReady = true ↔
      ∃ a, windowOpenedAt t0 evs = some a ∧ clockAfter t0 evs < a + ExitReadyTime) ∧
    (∀ a, (run s0 evs).bReady = true → windowOpenedAt t0 evs = some a →
      (run s0 evs).ExitReadyTimer = some (a + ExitReadyTime)) ∧
    ((run s0 evs).bReady = false → (run s0 evs).ExitReadyTimer = none) := by
  have hinit : WindowInv s0 (t0, none) := by
    refine ⟨h0, ?_, ?_⟩
    · intro hb; rw [hr0] at hb; cases hb
    · intro _; exact ⟨ht0, fun a ha => by cases ha⟩
  obtain ⟨i1, i2, i3⟩ := run_WindowInv evs s0 (t0, none) hinit
  refine ⟨?_, ?_, i1, ⟨?_, ?_⟩, ?_, ?_⟩
  · intro hb
    rw [(Attack_fields Ty Rand s).2.1, enterReady_timer_of_not_ready s w hb hW]
  · intro hb
    rw [(Attack_fields Ty Rand s).2.1, enterReady_timer_of_ready s hb]
  · intro hb
    obtain ⟨a, ha, hlt, -⟩ := i2 hb
    exact ⟨a, ha, hlt⟩
  · rintro ⟨a, ha, hlt⟩
    cases hb : (run s0 evs).bReady with
    | true => rfl
    | false =>
      have := (i3 hb).2 a ha
      have hlt2 : (List.foldl windowStep (t0, none) evs).1 < a + ExitReadyTime := hlt
      omega
  · intro a hb ha
    obtain ⟨b, hb1, -, hb3⟩ := i2 hb
    have hab : some b = some a := hb1.symm.trans ha
    cases hab
    exact hb3
  · intro hb
    exact (i3 hb).1

/-- Witness for C2 amended: Punch at time 0, Kick at time 3; the window
opened at 0 and not at 3, the deadline stays 4, and at time 4 the character
is not ready. -/
theorem readiness_window_witness :
    (windowOpenedAt 0 [Event.Punch 0, Event.Tick 3, Event.Kick 0] = some 0 ∧
      (run (spawned (some attackTable))
        [Event.Punch 0, Event.Tick 3, Event.Kick 0]).bReady = true ∧
      (run (spawned (some attackTable))
        [Event.Punch 0, Event.Tick 3, Event.Kick 0]).ExitReadyTimer = some 4) ∧
    (Attack EAttackType.KICK 0 (spawned (some attackTable))).ExitReadyTimer = some 4 := by
  have h := readiness_window EAttackType.KICK 0 (spawned (some attackTable)) ⟨0⟩
    (spawned (some attackTable)) 0 [Event.Punch 0, Event.Tick 3, Event.Kick 0]
    (by decide) (by decide) (by decide) (by decide)
  exact ⟨⟨by decide, h.2.2.2.1.2 ⟨0, by decide, by decide⟩,
    h.2.2.2.2.1 0 (by decide) (by decide)⟩, h.1 (by decide)⟩

end Melee
